import Mathlib

/-!
# `ModelReader.h`: the model-reader cell adapter

A shallow embedding of `object_recognition_core/db/ModelReader.h`.

* `ModelReaderImpl` is the base class an implementation derives from: one pure
  virtual member (`ParameterCallback`) and four hooks with empty default bodies.
* `ModelReaderBase<T>` derives from `T`, owns one private member
  (`model_documents_`, an `ecto::spore<Documents>`) and defines
  `declare_params`, `declare_io`, `configure` and `process`.

Conventions of the embedding.

* A class `T` deriving from `ModelReaderImpl` is a record `ReaderImpl σ` of its
  five member functions over the type `σ` of its data members.
* A non-static member function is a state transformer.  It returns the object
  state it leaves behind together with its outcome, so that the state reached
  when the function throws is part of the model.
* The two static functions receive `ecto::tendrils&` and are functions on
  registries that may throw.
* A registry is the list of its declarations.  `declare_params` binds
  `model_documents_` to the tendril "model_documents" of `params`, and
  `configure` passes the same `params` on, so `T::configure` reaches that
  tendril: it is handed the documents and the dirty mark, and what it leaves
  is kept.  `process` is handed `inputs` and `outputs` only.
* The types of the `ecto` framework are not defined in the header; the parts the
  header uses are given in the namespace `ecto` below.
-/

namespace ModelReader

/-! ## Types the header takes from elsewhere -/

/-- Modelled from the spec: a document handle (type `Document` of
`object_recognition_core/common/types.h`, which the header only includes).
The adapter never looks inside a document. -/
structure Document where
  id : String
deriving DecidableEq, Repr

/-- The payload type `Documents` (a sequence of documents). -/
abbrev Documents := List Document

/-- Exceptions that can travel through the adapter: the registry's rejection of
a second declaration under one name, or anything an implementation throws. -/
inductive Fault where
  | TendrilRedeclaration (name : String)
  | raised (what : String)
deriving DecidableEq, Repr

namespace ecto

/-- Modelled from the spec: the host's status code understood as
success/continue (`ecto::OK`, declared in `ecto/ecto.hpp`). -/
def OK : Int := 0

/-- Modelled from the spec: one declared option or channel of a registry: its
name, its description, and whether it is required. -/
structure tendril where
  name : String
  doc : String
  required : Bool
deriving DecidableEq, Repr

/-- Modelled from the spec: the host registry `ecto::tendrils` of named
required/optional declarations, in declaration order. -/
structure tendrils where
  entries : List tendril
deriving DecidableEq, Repr

/-- Names declared in a registry. -/
def tendrils.names (p : tendrils) : List String :=
  p.entries.map tendril.name

/-- Modelled from the spec: `tendrils::declare(name, doc)`.  A declaration under
a name that is already present is rejected by the registry; otherwise the
option is added, not required. -/
def tendrils.declare (p : tendrils) (name doc : String) : Except Fault tendrils :=
  if name ∈ p.names then
    Except.error (Fault.TendrilRedeclaration name)
  else
    Except.ok ⟨p.entries ++ [⟨name, doc, false⟩]⟩

/-- Modelled from the spec: `.required(b)` applied to the option `name`. -/
def tendrils.required (p : tendrils) (name : String) (b : Bool) : tendrils :=
  ⟨p.entries.map (fun t => if t.name = name then ⟨t.name, t.doc, b⟩ else t)⟩

/-- Modelled from the spec: the monitored value `ecto::spore<Documents>`: the
current documents, the dirty marker, and the subscribed handler (a member
function of an object with data members `σ`). -/
structure spore (σ : Type) where
  value : Documents
  is_dirty : Bool
  callback : Option (σ → Documents → σ × Option Fault)

/-- Modelled from the spec: what code that holds the registry reads and writes
of the monitored value: its documents and its dirty marker.  The subscription is
made by the wrapper, once per configuration, and is not reachable this way. -/
structure watched where
  value : Documents
  is_dirty : Bool
deriving DecidableEq, Repr

/-- The documents and the dirty marker of a monitored value. -/
def spore.view {σ : Type} (s : spore σ) : watched :=
  ⟨s.value, s.is_dirty⟩

/-- The monitored value with the documents and the dirty marker replaced; the
subscription stays. -/
def spore.store {σ : Type} (s : spore σ) (w : watched) : spore σ :=
  ⟨w.value, w.is_dirty, s.callback⟩

/-- Modelled from the spec: `setCallback(handler)` subscribes the handler. -/
def spore.set_callback {σ : Type} (s : spore σ)
    (cb : σ → Documents → σ × Option Fault) : spore σ :=
  ⟨s.value, s.is_dirty, some cb⟩

/-- Modelled from the spec: `markDirty(b)` sets the dirty marker; it does not
call the handler, the next read of the value does. -/
def spore.dirty {σ : Type} (s : spore σ) (b : Bool) : spore σ :=
  ⟨s.value, b, s.callback⟩

/-- Modelled from the spec: a read of the monitored value by the host, on
behalf of the object `obj` the handler is bound to.  A pending dirty mark is
delivered as one synchronous handler invocation on the current documents, and
the mark is cleared; a clean value is left alone. -/
def spore.notify {σ : Type} (s : spore σ) (obj : σ) : (σ × spore σ) × Option Fault :=
  if s.is_dirty then
    match s.callback with
    | some cb =>
      let r := cb obj s.value
      ((r.1, s.dirty false), r.2)
    | none => ((obj, s.dirty false), none)
  else
    ((obj, s), none)

end ecto

open ecto

/-! ## `ModelReaderImpl` -/

/-- A class `T` deriving from `ModelReaderImpl`, as the record of its member
functions; `σ` is the type of its data members.  `configure` is handed, with
`params`, the documents and the dirty mark of the tendril "model_documents",
and returns them as it leaves them. -/
structure ReaderImpl (σ : Type) where
  ParameterCallback : σ → Documents → σ × Option Fault
  declare_params : tendrils → Except Fault tendrils
  declare_io : tendrils → tendrils → tendrils → Except Fault (tendrils × tendrils)
  configure : σ → watched → tendrils → tendrils → tendrils → (σ × watched) × Option Fault
  process : σ → tendrils → tendrils → σ × Except Fault Int

namespace ModelReaderImpl

/-- `ModelReaderImpl::declare_params`: empty body. -/
def declare_params (params : tendrils) : Except Fault tendrils :=
  Except.ok params

/-- `ModelReaderImpl::declare_io`: empty body. -/
def declare_io (_params inputs outputs : tendrils) : Except Fault (tendrils × tendrils) :=
  Except.ok (inputs, outputs)

/-- `ModelReaderImpl::configure`: empty body. -/
def configure {σ : Type} (self : σ) (documents : watched) (_params _inputs _outputs : tendrils) :
    (σ × watched) × Option Fault :=
  ((self, documents), none)

/-- `ModelReaderImpl::process`: `return ecto::OK;`. -/
def process {σ : Type} (self : σ) (_inputs _outputs : tendrils) : σ × Except Fault Int :=
  (self, Except.ok ecto.OK)

/-- A class that derives from `ModelReaderImpl` and overrides nothing but the
pure virtual `ParameterCallback`. -/
def derive {σ : Type} (cb : σ → Documents → σ × Option Fault) : ReaderImpl σ :=
  ⟨cb, declare_params, declare_io, configure, process⟩

end ModelReaderImpl

/-! ## `ModelReaderBase<T>` -/

/-- An object of class `ModelReaderBase<T>`: the `T` sub-object and the private
member `model_documents_`. -/
structure ModelReaderBase (σ : Type) where
  impl : σ
  model_documents_ : spore σ

namespace ModelReaderBase

/-- `ModelReaderBase<T>::declare_params`. -/
def declare_params {σ : Type} (T : ReaderImpl σ) (params : tendrils) : Except Fault tendrils :=
  match params.declare "model_documents" "A set of Documents, one for each model to load." with
  | Except.error e => Except.error e
  | Except.ok p => T.declare_params (p.required "model_documents" true)

/-- `ModelReaderBase<T>::declare_io`. -/
def declare_io {σ : Type} (T : ReaderImpl σ) (params inputs outputs : tendrils) :
    Except Fault (tendrils × tendrils) :=
  T.declare_io params inputs outputs

/-- `ModelReaderBase<T>::configure`. -/
def configure {σ : Type} (T : ReaderImpl σ) (self : ModelReaderBase σ)
    (params inputs outputs : tendrils) : ModelReaderBase σ × Option Fault :=
  let md := (self.model_documents_.set_callback T.ParameterCallback).dirty true
  let r := T.configure self.impl md.view params inputs outputs
  (⟨r.1.1, md.store r.1.2⟩, r.2)

/-- `ModelReaderBase<T>::process`. -/
def process {σ : Type} (T : ReaderImpl σ) (self : ModelReaderBase σ)
    (inputs outputs : tendrils) : ModelReaderBase σ × Except Fault Int :=
  let r := T.process self.impl inputs outputs
  (⟨r.1, self.model_documents_⟩, r.2)

end ModelReaderBase

/-! ## The host's drive of the cell -/

namespace cell

/-- Modelled from the spec: one step execution by the host.  The host reads the
monitored value, which delivers a pending notification in-line, and then runs
the cell's `process`; a fault of the handler ends the step. -/
def process {σ : Type} (T : ReaderImpl σ) (self : ModelReaderBase σ)
    (inputs outputs : tendrils) : ModelReaderBase σ × Except Fault Int :=
  let n := self.model_documents_.notify self.impl
  match n.2 with
  | some e => (⟨n.1.1, n.1.2⟩, Except.error e)
  | none => ModelReaderBase.process T ⟨n.1.1, n.1.2⟩ inputs outputs

/-- Consecutive step executions, one per pair of input and output registries,
with nothing in between. -/
def run {σ : Type} (T : ReaderImpl σ) (self : ModelReaderBase σ) :
    List (tendrils × tendrils) → ModelReaderBase σ
  | [] => self
  | io :: rest => run T (process T self io.1 io.2).1 rest

end cell

/-! ## Instrumented implementations -/

/-- The implementation `T` with a log added to its data members: every
invocation of the change handler appends its argument to the log, and the
other member functions are those of `T`. -/
def recording {σ : Type} (T : ReaderImpl σ) : ReaderImpl (σ × List Documents) :=
  ⟨fun s d => let r := T.ParameterCallback s.1 d; ((r.1, s.2 ++ [d]), r.2),
   T.declare_params,
   T.declare_io,
   fun s w p i o => let r := T.configure s.1 w p i o; (((r.1.1, s.2), r.1.2), r.2),
   fun s i o => let r := T.process s.1 i o; ((r.1, s.2), r.2)⟩

/-- An implementation whose only data member is a counter of the invocations
of its change handler, and which overrides nothing else. -/
def counting : ReaderImpl Nat :=
  ModelReaderImpl.derive (fun n _ => (n + 1, none))

/-- An implementation whose change handler always throws `e`, and which
overrides nothing else. -/
def faulting (e : Fault) : ReaderImpl Unit :=
  ModelReaderImpl.derive (fun s _ => (s, some e))

/-- A `declare_params` body that declares the options `ds` in order, each with
its own required flag. -/
def declare_all : List tendril → tendrils → Except Fault tendrils
  | [], p => Except.ok p
  | d :: ds, p =>
    match p.declare d.name d.doc with
    | Except.error e => Except.error e
    | Except.ok q => declare_all ds (q.required d.name d.required)

/-- An implementation that declares the options `ds` and overrides nothing else
besides the change handler. -/
def declaring {σ : Type} (cb : σ → Documents → σ × Option Fault) (ds : List tendril) :
    ReaderImpl σ :=
  ⟨cb, declare_all ds, ModelReaderImpl.declare_io, ModelReaderImpl.configure,
   ModelReaderImpl.process⟩

/-! ## Auxiliary facts -/

/-- The wrapper's `process` touches neither the log nor `model_documents_`. -/
theorem process_keeps_log {σ : Type} (T : ReaderImpl σ)
    (c : ModelReaderBase (σ × List Documents)) (i o : tendrils) :
    (ModelReaderBase.process (recording T) c i o).1.impl.2 = c.impl.2 ∧
    (ModelReaderBase.process (recording T) c i o).1.model_documents_ = c.model_documents_ :=
  ⟨rfl, rfl⟩

/-- A step on a clean watched value calls no handler and leaves the value clean. -/
theorem step_on_clean {σ : Type} (T : ReaderImpl σ)
    (c : ModelReaderBase (σ × List Documents)) (i o : tendrils)
    (h : c.model_documents_.is_dirty = false) :
    (cell.process (recording T) c i o).1.impl.2 = c.impl.2 ∧
    (cell.process (recording T) c i o).1.model_documents_.is_dirty = false := by
  simp [cell.process, spore.notify, h, ModelReaderBase.process, recording]

/-- Whatever the watched value holds, a step leaves it clean and keeps its
subscription. -/
theorem step_leaves_clean {σ : Type} (T : ReaderImpl σ) (c : ModelReaderBase σ)
    (i o : tendrils) :
    (cell.process T c i o).1.model_documents_.is_dirty = false ∧
    (cell.process T c i o).1.model_documents_.callback = c.model_documents_.callback := by
  unfold cell.process spore.notify
  cases hd : c.model_documents_.is_dirty
  · simp [ModelReaderBase.process, hd]
  · cases hc : c.model_documents_.callback with
    | none => simp [ModelReaderBase.process, spore.dirty, hc]
    | some cb =>
      cases hr : (cb c.impl c.model_documents_.value).2 <;>
        simp [ModelReaderBase.process, spore.dirty, hc, hr]

/-- Any run of steps from a clean watched value calls no handler. -/
theorem run_on_clean {σ : Type} (T : ReaderImpl σ) (ios : List (tendrils × tendrils)) :
    ∀ c : ModelReaderBase (σ × List Documents), c.model_documents_.is_dirty = false →
      (cell.run (recording T) c ios).impl.2 = c.impl.2 := by
  induction ios with
  | nil => intro c _; rfl
  | cons io rest ih =>
    intro c h
    have hs := step_on_clean T c io.1 io.2 h
    show (cell.run (recording T) (cell.process (recording T) c io.1 io.2).1 rest).impl.2 = _
    rw [ih _ hs.2, hs.1]

/-- Declaring a fresh name and then setting its required flag appends one entry. -/
theorem declare_then_required (p : tendrils) (name doc : String) (b : Bool)
    (h : name ∉ p.names) :
    p.declare name doc = Except.ok ⟨p.entries ++ [⟨name, doc, false⟩]⟩ ∧
    (tendrils.required ⟨p.entries ++ [⟨name, doc, false⟩]⟩ name b) =
      ⟨p.entries ++ [⟨name, doc, b⟩]⟩ := by
  refine ⟨by simp [tendrils.declare, h], ?_⟩
  have hne : ∀ t ∈ p.entries, t.name ≠ name := by
    intro t ht heq
    exact h (by rw [← heq]; exact List.mem_map_of_mem tendril.name ht)
  have hmap : p.entries.map (fun t => if t.name = name then (⟨t.name, t.doc, b⟩ : tendril) else t)
      = p.entries := by
    conv_rhs => rw [← List.map_id p.entries]
    apply List.map_congr_left
    intro t ht
    simp [hne t ht]
  simp [tendrils.required, hmap]

/-- Declaring fresh, pairwise distinct options appends them in order. -/
theorem declare_all_fresh (ds : List tendril) :
    ∀ p : tendrils, (∀ d ∈ ds, d.name ∉ p.names) → (ds.map tendril.name).Nodup →
      declare_all ds p = Except.ok ⟨p.entries ++ ds⟩ := by
  induction ds with
  | nil => intro p _ _; simp [declare_all]
  | cons d rest ih =>
    intro p hfresh hnodup
    have hd : d.name ∉ p.names := hfresh d (List.mem_cons_self _ _)
    have h := declare_then_required p d.name d.doc d.required hd
    rw [List.map_cons, List.nodup_cons] at hnodup
    have hrest : ∀ x ∈ rest, x.name ∉ (⟨p.entries ++ [d]⟩ : tendrils).names := by
      intro x hx hmem
      simp only [tendrils.names, List.map_append, List.mem_append, List.map_cons, List.map_nil,
        List.mem_singleton] at hmem
      rcases hmem with hmem | hmem
      · exact hfresh x (List.mem_cons_of_mem _ hx) hmem
      · exact hnodup.1 (by rw [← hmem]; exact List.mem_map_of_mem tendril.name hx)
    have := ih ⟨p.entries ++ [d]⟩ hrest hnodup.2
    simp only [declare_all, h.1, h.2]
    simpa using this

/-! ## Pass-through members -/

/-- C1: `ModelReaderBase<T>::process` returns exactly what `T::process` returns
on the same inputs and outputs, a status code or an exception alike, and leaves
the `T` sub-object in the state `T::process` leaves it in. -/
theorem process_pass_through {σ : Type} (T : ReaderImpl σ) (self : ModelReaderBase σ)
    (inputs outputs : tendrils) :
    (ModelReaderBase.process T self inputs outputs).2 = (T.process self.impl inputs outputs).2 ∧
    (ModelReaderBase.process T self inputs outputs).1.impl =
      (T.process self.impl inputs outputs).1 :=
  ⟨rfl, rfl⟩

/-- C7: `ModelReaderBase<T>::declare_io` gives the input and output registries
that `T::declare_io` gives on the same arguments; over an implementation that
keeps the empty `ModelReaderImpl::declare_io` both registries come back
unchanged, so the wrapper declares no channel of its own. -/
theorem declare_io_pass_through {σ : Type} (T : ReaderImpl σ) (params inputs outputs : tendrils) :
    ModelReaderBase.declare_io T params inputs outputs = T.declare_io params inputs outputs ∧
    ModelReaderBase.declare_io
        ⟨T.ParameterCallback, T.declare_params, ModelReaderImpl.declare_io, T.configure, T.process⟩
        params inputs outputs = Except.ok (inputs, outputs) :=
  ⟨rfl, rfl⟩

/-- C8: `ModelReaderImpl::process` returns `ecto::OK` on every input, and so
does `ModelReaderBase<T>::process` over any implementation that keeps it,
whatever else that implementation overrides. -/
theorem default_process_returns_OK {σ : Type} (T : ReaderImpl σ) (s : σ)
    (self : ModelReaderBase σ) (inputs outputs : tendrils) :
    (ModelReaderImpl.process s inputs outputs).2 = Except.ok ecto.OK ∧
    (ModelReaderBase.process
        ⟨T.ParameterCallback, T.declare_params, T.declare_io, T.configure, ModelReaderImpl.process⟩
        self inputs outputs).2 = Except.ok ecto.OK :=
  ⟨rfl, rfl⟩

/-! ## `configure` -/

/-- C9: the outcome of `ModelReaderBase<T>::configure` is the outcome of the
forwarded `T::configure`, called on the same arguments with the documents
marked dirty: it throws exactly when `T::configure` throws, and then the same
exception.  Subscribing the handler and marking the value dirty add no failure:
over an implementation whose change handler always throws and whose `configure`
is the default one, `configure` succeeds. -/
theorem configure_outcome {σ : Type} (T : ReaderImpl σ) (self : ModelReaderBase σ)
    (params inputs outputs : tendrils) (e : Fault) (c : ModelReaderBase Unit) :
    (ModelReaderBase.configure T self params inputs outputs).2 =
      (T.configure self.impl ⟨self.model_documents_.value, true⟩ params inputs outputs).2 ∧
    (ModelReaderBase.configure (faulting e) c params inputs outputs).2 = none :=
  ⟨rfl, rfl⟩

/-- C4: once a `configure` and the step that delivers its forced notification
are done, any number of further steps, with no `configure` and no change of the
documents in between, leave the log of handler invocations as it is. -/
theorem steps_do_not_refire {σ : Type} (T : ReaderImpl σ)
    (c : ModelReaderBase (σ × List Documents))
    (params inputs outputs inputs1 outputs1 : tendrils) (ios : List (tendrils × tendrils)) :
    (cell.run (recording T)
        (cell.process (recording T)
          (ModelReaderBase.configure (recording T) c params inputs outputs).1
          inputs1 outputs1).1 ios).impl.2 =
      (cell.process (recording T)
          (ModelReaderBase.configure (recording T) c params inputs outputs).1
          inputs1 outputs1).1.impl.2 :=
  run_on_clean T ios _
    (step_leaves_clean (recording T)
      (ModelReaderBase.configure (recording T) c params inputs outputs).1 inputs1 outputs1).1

/-- C3, as stated, fails: on a counting implementation whose counter is 0, the
counter is not 1 after the first `configure` (and not 2 after the second). -/
theorem configure_alone_does_not_count :
    ¬ ((ModelReaderBase.configure counting ⟨0, ⟨[], false, none⟩⟩ ⟨[]⟩ ⟨[]⟩ ⟨[]⟩).1.impl = 1 ∧
       (ModelReaderBase.configure counting
          (ModelReaderBase.configure counting ⟨0, ⟨[], false, none⟩⟩ ⟨[]⟩ ⟨[]⟩ ⟨[]⟩).1
          ⟨[]⟩ ⟨[]⟩ ⟨[]⟩).1.impl = 2) := by
  decide

/-- C3, amended: on a counting implementation whose counter is 0, `configure`
itself leaves the counter alone; the step after the first `configure` brings it
to 1, a second `configure` on the same instance leaves it at 1, and the step
after that brings it to 2. -/
theorem configure_counts_at_next_step (md : spore Nat)
    (p1 i1 o1 i2 o2 p3 i3 o3 i4 o4 : tendrils) :
    (ModelReaderBase.configure counting ⟨0, md⟩ p1 i1 o1).1.impl = 0 ∧
    (cell.process counting (ModelReaderBase.configure counting ⟨0, md⟩ p1 i1 o1).1 i2 o2).1.impl
      = 1 ∧
    (ModelReaderBase.configure counting
      (cell.process counting (ModelReaderBase.configure counting ⟨0, md⟩ p1 i1 o1).1 i2 o2).1
      p3 i3 o3).1.impl = 1 ∧
    (cell.process counting
      (ModelReaderBase.configure counting
        (cell.process counting (ModelReaderBase.configure counting ⟨0, md⟩ p1 i1 o1).1 i2 o2).1
        p3 i3 o3).1 i4 o4).1.impl = 2 :=
  ⟨rfl, rfl, rfl, rfl⟩

/-! ## `declare_params` -/

/-- C5, as stated, fails: the registry is empty, so neither "model_documents"
nor the implementation's option name is declared in it, yet
`ModelReaderBase<T>::declare_params` yields no registry, because the
implementation's own option is called "model_documents" and the registry
rejects the second declaration. -/
theorem declare_params_own_collision :
    ("model_documents" ∉ (⟨[]⟩ : tendrils).names ∧
      ∀ d ∈ [(⟨"model_documents", "mine", false⟩ : tendril)], d.name ∉ (⟨[]⟩ : tendrils).names) ∧
    ModelReaderBase.declare_params
        (declaring (fun (s : Unit) _ => (s, none)) [⟨"model_documents", "mine", false⟩]) ⟨[]⟩ =
      Except.error (Fault.TendrilRedeclaration "model_documents") ∧
    ∀ r : tendrils,
      ModelReaderBase.declare_params
        (declaring (fun (s : Unit) _ => (s, none)) [⟨"model_documents", "mine", false⟩]) ⟨[]⟩ ≠
      Except.ok r := by
  refine ⟨⟨by decide, by decide⟩, rfl, ?_⟩
  intro r h
  have : ModelReaderBase.declare_params
        (declaring (fun (s : Unit) _ => (s, none)) [⟨"model_documents", "mine", false⟩]) ⟨[]⟩ =
      Except.error (Fault.TendrilRedeclaration "model_documents") := rfl
  rw [this] at h
  cases h

/-- C5, amended: let `T::declare_params` declare the options `ds`, whose names
are pairwise distinct and none of which is called "model_documents".  On every
registry in which neither "model_documents" nor a name of `ds` is declared,
`ModelReaderBase<T>::declare_params` succeeds, and the registry it yields is
the initial one followed by the option "model_documents", required, with the
description of the header, followed by `ds`: nothing else is added and nothing
is removed. -/
theorem declare_params_union {σ : Type} (T : ReaderImpl σ) (ds : List tendril)
    (hT : ∀ q, T.declare_params q = declare_all ds q) (p : tendrils)
    (hmd : "model_documents" ∉ p.names)
    (hds : ∀ d ∈ ds, d.name ∉ p.names)
    (hown : "model_documents" ∉ ds.map tendril.name)
    (hdistinct : (ds.map tendril.name).Nodup) :
    ModelReaderBase.declare_params T p =
      Except.ok ⟨p.entries ++
        ⟨"model_documents", "A set of Documents, one for each model to load.", true⟩ :: ds⟩ := by
  have h := declare_then_required p "model_documents"
    "A set of Documents, one for each model to load." true hmd
  have hfresh : ∀ d ∈ ds, d.name ∉ (⟨p.entries ++
      [⟨"model_documents", "A set of Documents, one for each model to load.", true⟩]⟩ :
        tendrils).names := by
    intro d hd hmem
    simp only [tendrils.names, List.map_append, List.mem_append, List.map_cons, List.map_nil,
      List.mem_singleton] at hmem
    rcases hmem with hmem | hmem
    · exact hds d hd hmem
    · exact hown (by rw [← hmem]; exact List.mem_map_of_mem tendril.name hd)
  have hall := declare_all_fresh ds _ hfresh hdistinct
  simp only [ModelReaderBase.declare_params, h.1, h.2, hT, hall]
  simp

/-- C5, amended, at an implementation that declares two options over a
registry that already holds one: the hypotheses hold there, and so does the
conclusion. -/
theorem declare_params_union_witness :
    ("model_documents" ∉ (⟨[⟨"db", "database", true⟩]⟩ : tendrils).names ∧
      (∀ d ∈ [(⟨"k", "neighbours", false⟩ : tendril), ⟨"radius", "search radius", true⟩],
        d.name ∉ (⟨[⟨"db", "database", true⟩]⟩ : tendrils).names) ∧
      "model_documents" ∉
        [(⟨"k", "neighbours", false⟩ : tendril), ⟨"radius", "search radius", true⟩].map
          tendril.name ∧
      ([(⟨"k", "neighbours", false⟩ : tendril), ⟨"radius", "search radius", true⟩].map
          tendril.name).Nodup) ∧
    ModelReaderBase.declare_params
        (declaring (fun (s : Unit) _ => (s, none))
          [⟨"k", "neighbours", false⟩, ⟨"radius", "search radius", true⟩])
        ⟨[⟨"db", "database", true⟩]⟩ =
      Except.ok ⟨[⟨"db", "database", true⟩,
        ⟨"model_documents", "A set of Documents, one for each model to load.", true⟩,
        ⟨"k", "neighbours", false⟩, ⟨"radius", "search radius", true⟩]⟩ :=
  ⟨⟨by decide, by decide, by decide, by decide⟩,
   declare_params_union
    (declaring (fun (s : Unit) _ => (s, none))
      [⟨"k", "neighbours", false⟩, ⟨"radius", "search radius", true⟩])
    [⟨"k", "neighbours", false⟩, ⟨"radius", "search radius", true⟩]
    (fun _ => rfl) ⟨[⟨"db", "database", true⟩]⟩
    (by decide) (by decide) (by decide) (by decide)⟩

end ModelReader
